import Mathlib

/-!
# Tasker: task persistence and query layer

A shallow embedding of `main.go`.  The MongoDB collection held in the global
`collection` is an explicit `List Task` in natural (cursor) order that every
operation receives and, when it writes, returns.  Each call into the driver
additionally receives a `Faults` value: what the transport does to that call
(the call failing, the cursor breaking, a decode failing).  Values the program
reads from its surroundings (`primitive.NewObjectID()`, `time.Now()`, the
command-line arguments) are parameters.
-/

set_option autoImplicit false

namespace Tasker

/-! ## Data model -/

/-- The `Task` struct, as the document the collection stores for it.
`primitive.ObjectID` (12 bytes) is the number those bytes spell; `time.Time` is
the instant as a BSON datetime keeps it, a count of milliseconds. -/
structure Task where
  ID : Nat
  CreatedAt : Int
  UpdatedAt : Int
  Title : String
  Done : Bool
deriving DecidableEq, Repr

/-- Go `error` values the program handles: the driver sentinel
`mongo.ErrNoDocuments`, a value built by `errors.New`, and any other error the
driver reports (connectivity, rejected write, decoding). -/
inductive Err where
  | ErrNoDocuments
  | New (msg : String)
  | driver (msg : String)
deriving DecidableEq, Repr

/-- BSON values the program puts into filters and updates. -/
inductive Value where
  | str (s : String)
  | bool (b : Bool)
deriving DecidableEq, Repr

/-- A `bson.D` of `primitive.E{Key, Value}` elements: the filter documents. -/
abbrev D := List (String × Value)

/-- An update document: a `bson.D` whose values are themselves `bson.D`,
as in `{"$set": {"done": true}}`. -/
abbrev UpdateD := List (String × D)

/-- What the transport does to one driver call: `call` is the error of the call
itself, `next i` the error that stops the cursor when it is asked for document
number `i`, `decode i` the error of decoding document number `i`. -/
structure Faults where
  call : Option String
  next : Nat → Option String
  decode : Nat → Option String

/-- A call that nothing goes wrong with. -/
def Faults.healthy : Faults := ⟨none, fun _ => none, fun _ => none⟩

/-- No fault at all on this call. -/
def Faults.Clean (env : Faults) : Prop :=
  env.call = none ∧ (∀ i, env.next i = none) ∧ (∀ i, env.decode i = none)

/-! ## The driver

The MongoDB driver is a collaborator of the program, not part of it.  These
definitions fix the documented behaviour the program relies on, over
collections whose documents are `Task` values. -/

/-- One condition `{key: value}` of a filter holds of a task document:
the field named `key` has exactly that value (type and content; string
comparison is binary).  Task documents have string field `title` and boolean
field `done`; the other fields hold neither strings nor booleans. -/
def Task.satisfies (t : Task) (e : String × Value) : Bool :=
  match e.2 with
  | .str s => e.1 == "title" && t.Title == s
  | .bool b => e.1 == "done" && t.Done == b

/-- A filter document selects the documents that satisfy all its conditions;
the empty document selects every document. -/
def selects (filter : D) (t : Task) : Bool :=
  filter.all t.satisfies

/-- Setting one field of a task document with `$set`. -/
def setField (t : Task) (e : String × Value) : Task :=
  match e.2 with
  | .str s => if e.1 = "title" then { t with Title := s } else t
  | .bool b => if e.1 = "done" then { t with Done := b } else t

/-- The field assignment keeps the document a task document. -/
def settable (e : String × Value) : Bool :=
  match e.2 with
  | .str _ => e.1 == "title"
  | .bool _ => e.1 == "done"

/-- Updates the model covers: `$set` operators over task fields. -/
def supported (update : UpdateD) : Bool :=
  update.all fun op => op.1 == "$set" && op.2.all settable

/-- The document after the update operators are applied in turn. -/
def applyUpdate (update : UpdateD) (t : Task) : Task :=
  update.foldl (fun acc op => op.2.foldl setField acc) t

/-- Rewrites the first element satisfying `p`. -/
def updateFirst (p : Task → Bool) (f : Task → Task) : List Task → List Task
  | [] => []
  | t :: ts => if p t then f t :: ts else t :: updateFirst p f ts

/-- The driver call `collection.InsertOne`: the document is added at the end of the
natural order, unless the call fails or its `_id` is already taken. -/
def InsertOne (env : Faults) (collection : List Task) (task : Task) :
    Option Err × List Task :=
  match env.call with
  | some m => (some (.driver m), collection)
  | none =>
    if task.ID ∈ collection.map Task.ID then
      (some (.driver "E11000 duplicate key error"), collection)
    else (none, collection ++ [task])

/-- A cursor: the selected documents it has still to deliver. -/
structure Cursor where
  batch : List Task

/-- The driver call `collection.Find`: a cursor over the selected documents in
natural order, or the error of the call. -/
def Find (env : Faults) (collection : List Task) (filter : D) : Except Err Cursor :=
  match env.call with
  | some m => .error (.driver m)
  | none => .ok ⟨collection.filter (selects filter)⟩

/-- The result of `FindOneAndUpdate`: an error, or the document found. -/
structure SingleResult where
  err : Option Err
  rdr : Option Task

/-- The driver call `collection.FindOneAndUpdate`: the first selected document in
natural order is updated; `ErrNoDocuments` when nothing is selected. -/
def FindOneAndUpdate (env : Faults) (collection : List Task) (filter : D)
    (update : UpdateD) : SingleResult × List Task :=
  match env.call with
  | some m => (⟨some (.driver m), none⟩, collection)
  | none =>
    if supported update then
      match collection.find? (selects filter) with
      | none => (⟨some .ErrNoDocuments, none⟩, collection)
      | some t => (⟨none, some t⟩, updateFirst (selects filter) (applyUpdate update) collection)
    else (⟨some (.driver "unsupported update"), none⟩, collection)

/-- The method `SingleResult.Decode`: the error the result carries, else the
error of decoding the document. -/
def SingleResult.Decode (env : Faults) (sr : SingleResult) : Option Err :=
  match sr.err with
  | some e => some e
  | none => (env.decode 0).map Err.driver

/-- The result of `DeleteOne`. -/
structure DeleteResult where
  DeletedCount : Nat

/-- The driver call `collection.DeleteOne`: the first selected document in natural
order is removed and counted. -/
def DeleteOne (env : Faults) (collection : List Task) (filter : D) :
    Except Err DeleteResult × List Task :=
  match env.call with
  | some m => (.error (.driver m), collection)
  | none =>
    if collection.any (selects filter) then
      (.ok ⟨1⟩, collection.eraseP (selects filter))
    else (.ok ⟨0⟩, collection)

/-! ## The program -/

/-- The function `createTask`. -/
def createTask (env : Faults) (collection : List Task) (task : Task) :
    Option Err × List Task :=
  InsertOne env collection task

/-- The loop `for cur.Next(ctx) { ... }` of `filterTasks` together with the
`cur.Err()` check after it: `i` documents were delivered, `tasks` is the slice
built so far.  The loop ends when the cursor is exhausted, when it breaks
(`Next` is false and `cur.Err()` is the error) or when a decode fails. -/
def drain (env : Faults) : Nat → List Task → List Task → List Task × Option Err
  | _, [], tasks => (tasks, none)
  | i, t :: rest, tasks =>
    match env.next i with
    | some m => (tasks, some (.driver m))
    | none =>
      match env.decode i with
      | some m => (tasks, some (.driver m))
      | none => drain env (i + 1) rest (tasks ++ [t])

/-- The function `filterTasks`; the Go pair `(tasks, err)`.  The call
`cur.Close(ctx)` releases the cursor and has no effect on the result. -/
def filterTasks (env : Faults) (collection : List Task) (filter : D) :
    List Task × Option Err :=
  let tasks : List Task := []
  match Find env collection filter with
  | .error err => (tasks, some err)
  | .ok cur =>
    match drain env 0 cur.batch tasks with
    | (tasks, some err) => (tasks, some err)
    | (tasks, none) =>
      if tasks.length = 0 then (tasks, some .ErrNoDocuments)
      else (tasks, none)

/-- The function `getAll`. -/
def getAll (env : Faults) (collection : List Task) : List Task × Option Err :=
  let filter : D := []
  filterTasks env collection filter

/-- The function `getPending`. -/
def getPending (env : Faults) (collection : List Task) : List Task × Option Err :=
  let filter : D := [("done", .bool false)]
  filterTasks env collection filter

/-- The function `getFinished`. -/
def getFinished (env : Faults) (collection : List Task) : List Task × Option Err :=
  let filter : D := [("done", .bool true)]
  filterTasks env collection filter

/-- The function `completeTask`. -/
def completeTask (env : Faults) (collection : List Task) (title : String) :
    Option Err × List Task :=
  let filter : D := [("title", .str title)]
  let update : UpdateD := [("$set", [("done", .bool true)])]
  let r := FindOneAndUpdate env collection filter update
  (r.1.Decode env, r.2)

/-- The function `deleteTask`. -/
def deleteTask (env : Faults) (collection : List Task) (title : String) :
    Option Err × List Task :=
  let filter : D := [("title", .str title)]
  match DeleteOne env collection filter with
  | (.error err, collection) => (some err, collection)
  | (.ok res, collection) =>
    if res.DeletedCount = 0 then (some (.New "No tasks were deleted"), collection)
    else (none, collection)

/-- How a command action ends: `log.Fatal` stops the process, or the action
returns its error to `app.Run`. -/
inductive Exit where
  | fatal (msg : String)
  | returned (err : Option Err)
deriving DecidableEq, Repr

/-- The call `c.Args().First()`: the first argument, or `""` when there is none. -/
def First (args : List String) : String :=
  args.headD ""

/-- The `Action` of the `add` command; `oid` is what `primitive.NewObjectID()`
yields, `created` and `updated` what the two `time.Now()` calls yield. -/
def addAction (env : Faults) (oid : Nat) (created updated : Int)
    (args : List String) (collection : List Task) : Exit × List Task :=
  let str := First args
  if str = "" then (.fatal "Please enter a task", collection)
  else
    let task : Task := ⟨oid, created, updated, str, false⟩
    let r := createTask env collection task
    (.returned r.1, r.2)

/-! ## Sample data -/

/-- A pending task. -/
def milk : Task := ⟨1, 10, 10, "buy milk", false⟩

/-- A finished task. -/
def walk : Task := ⟨2, 20, 20, "walk", true⟩

/-- A second pending task with the title of `milk`. -/
def milkAgain : Task := ⟨3, 30, 30, "buy milk", false⟩

/-! ## Lemmas on the driver -/

theorem healthy_clean : Faults.healthy.Clean :=
  ⟨rfl, fun _ => rfl, fun _ => rfl⟩

theorem selects_title (title : String) (t : Task) :
    selects [("title", .str title)] t = (t.Title == title) := by
  simp [selects, Task.satisfies]

theorem selects_done (b : Bool) (t : Task) :
    selects [("done", .bool b)] t = (t.Done == b) := by
  simp [selects, Task.satisfies]

theorem drain_clean (env : Faults) (h : env.Clean) (rest : List Task) :
    ∀ (i : Nat) (tasks : List Task), drain env i rest tasks = (tasks ++ rest, none) := by
  induction rest with
  | nil => intro i tasks; simp [drain]
  | cons t rest ih =>
    intro i tasks
    simp [drain, h.2.1 i, h.2.2 i, ih]

theorem filterTasks_clean (env : Faults) (h : env.Clean) (collection : List Task)
    (filter : D) :
    filterTasks env collection filter =
      if collection.filter (selects filter) = [] then ([], some .ErrNoDocuments)
      else (collection.filter (selects filter), none) := by
  simp only [filterTasks, Find, h.1, drain_clean env h, List.nil_append, List.length_eq_zero]
  split <;> simp_all

theorem filter_selects_nil (collection : List Task) :
    collection.filter (selects []) = collection := by
  simp [selects]

theorem createTask_ok (env : Faults) (collection : List Task) (task : Task)
    (hok : (createTask env collection task).1 = none) :
    task ∉ collection ∧ (createTask env collection task).2 = collection ++ [task] := by
  unfold createTask InsertOne at *
  cases hc : env.call with
  | some m => simp [hc] at hok
  | none =>
    simp only [hc] at hok ⊢
    by_cases hid : task.ID ∈ collection.map Task.ID
    · simp [hid] at hok
    · refine ⟨fun hmem => hid (List.mem_map_of_mem _ hmem), ?_⟩
      simp [hid]

theorem updateFirst_length (p : Task → Bool) (f : Task → Task) (l : List Task) :
    (updateFirst p f l).length = l.length := by
  induction l with
  | nil => rfl
  | cons t ts ih =>
    by_cases hp : p t = true <;> simp [updateFirst, hp, ih]

theorem updateFirst_of_forall_not (p : Task → Bool) (f : Task → Task) (l : List Task)
    (h : ∀ t ∈ l, p t = false) : updateFirst p f l = l := by
  induction l with
  | nil => rfl
  | cons t ts ih =>
    have ht : p t = false := h t (List.mem_cons_self _ _)
    have hts : ∀ x ∈ ts, p x = false := fun x hx => h x (List.mem_cons_of_mem _ hx)
    simp [updateFirst, ht, ih hts]

theorem updateFirst_getElem?_ne (p : Task → Bool) (f : Task → Task) (l : List Task) :
    ∀ i : Nat, i ≠ l.findIdx p → (updateFirst p f l)[i]? = l[i]? := by
  induction l with
  | nil => intro i _; rfl
  | cons t ts ih =>
    intro i hi
    by_cases hp : p t = true
    · have hk : (t :: ts).findIdx p = 0 := by simp [List.findIdx_cons, hp]
      rw [hk] at hi
      obtain ⟨j, rfl⟩ := Nat.exists_eq_succ_of_ne_zero hi
      simp [updateFirst, hp]
    · have hk : (t :: ts).findIdx p = ts.findIdx p + 1 := by simp [List.findIdx_cons, hp]
      rw [hk] at hi
      cases i with
      | zero => simp [updateFirst, hp]
      | succ j =>
        have hj : j ≠ ts.findIdx p := fun h => hi (by rw [h])
        simp [updateFirst, hp, ih j hj]

theorem updateFirst_getElem?_first (p : Task → Bool) (f : Task → Task) (l : List Task) :
    (updateFirst p f l)[l.findIdx p]? = (l[l.findIdx p]?).map f := by
  induction l with
  | nil => rfl
  | cons t ts ih =>
    by_cases hp : p t = true
    · simp [updateFirst, List.findIdx_cons, hp]
    · simp [updateFirst, List.findIdx_cons, hp, ih]

theorem find?_updateFirst (p : Task → Bool) (f : Task → Task) (l : List Task)
    (hkeep : ∀ t, p t = true → p (f t) = true) :
    (updateFirst p f l).find? p = (l.find? p).map f := by
  induction l with
  | nil => rfl
  | cons t ts ih =>
    by_cases hp : p t = true
    · simp [updateFirst, hp, hkeep t hp]
    · simp [updateFirst, hp, ih]

theorem updateFirst_idem (p : Task → Bool) (f : Task → Task) (l : List Task)
    (hkeep : ∀ t, p t = true → p (f t) = true) (hidem : ∀ t, f (f t) = f t) :
    updateFirst p f (updateFirst p f l) = updateFirst p f l := by
  induction l with
  | nil => rfl
  | cons t ts ih =>
    by_cases hp : p t = true
    · simp [updateFirst, hp, hkeep t hp, hidem]
    · simp [updateFirst, hp, ih]

theorem supported_set_done : supported [("$set", [("done", Value.bool true)])] = true := by
  decide

theorem applyUpdate_set_done (t : Task) :
    applyUpdate [("$set", [("done", Value.bool true)])] t = { t with Done := true } := by
  simp [applyUpdate, setField]

/-- The store `completeTask` leaves: untouched when the call fails, else with the
first task of that title marked done. -/
theorem completeTask_store (env : Faults) (collection : List Task) (title : String) :
    (completeTask env collection title).2 =
      if env.call = none then
        updateFirst (fun t => t.Title == title) (fun t => { t with Done := true }) collection
      else collection := by
  have hsel : selects [("title", Value.str title)] = fun t : Task => t.Title == title := by
    funext t; rw [selects_title]
  have hupd : applyUpdate [("$set", [("done", Value.bool true)])]
      = fun t : Task => { t with Done := true } := by
    funext t; rw [applyUpdate_set_done]
  simp only [completeTask, FindOneAndUpdate, supported_set_done, hsel, hupd, if_true]
  cases hc : env.call with
  | some m => simp
  | none =>
    simp only [if_true]
    cases hf : collection.find? (fun t => t.Title == title) with
    | some t => rfl
    | none =>
      simp only
      rw [updateFirst_of_forall_not]
      intro t ht
      have := (List.find?_eq_none.mp hf) t ht
      simpa using this

/-- The error `completeTask` returns when nothing goes wrong with the call. -/
theorem completeTask_err (env : Faults) (collection : List Task) (title : String)
    (h : env.Clean) :
    (completeTask env collection title).1 =
      if (collection.find? (fun t => t.Title == title)).isSome then none
      else some Err.ErrNoDocuments := by
  have hsel : selects [("title", Value.str title)] = fun t : Task => t.Title == title := by
    funext t; rw [selects_title]
  simp only [completeTask, FindOneAndUpdate, supported_set_done, hsel, h.1, if_true]
  cases hf : collection.find? (fun t => t.Title == title) with
  | some t => simp [SingleResult.Decode, h.2.2 0]
  | none => simp [SingleResult.Decode]

theorem find?_title_isSome (collection : List Task) (title : String) :
    (collection.find? (fun t => t.Title == title)).isSome = true ↔
      ∃ t ∈ collection, t.Title = title := by
  rw [List.find?_isSome]
  simp

/-! ## Queries -/

/-- C1: when the find call, the cursor and every decode succeed, `filterTasks`
returns `ErrNoDocuments` exactly when no stored task is selected by the filter;
when some task is selected it returns no error and the selected tasks, each
once, in cursor order. -/
theorem filterTasks_sentinel_iff_no_match (env : Faults) (collection : List Task)
    (filter : D) (h : env.Clean) :
    ((filterTasks env collection filter).2 = some Err.ErrNoDocuments ↔
        ∀ t ∈ collection, selects filter t = false) ∧
    ((∃ t ∈ collection, selects filter t = true) →
        filterTasks env collection filter = (collection.filter (selects filter), none)) := by
  rw [filterTasks_clean env h]
  constructor
  · by_cases hnil : collection.filter (selects filter) = []
    · simp only [hnil, if_true, true_iff]
      intro t ht
      have := List.filter_eq_nil_iff.mp hnil t ht
      simpa using this
    · simp only [hnil, if_false]
      constructor
      · intro hcontra; cases hcontra
      · intro hall
        exact absurd (List.filter_eq_nil_iff.mpr (fun a ha => by simp [hall a ha])) hnil
  · rintro ⟨t, ht, hsel⟩
    have hne : collection.filter (selects filter) ≠ [] := by
      intro hnil
      have := List.filter_eq_nil_iff.mp hnil t ht
      exact this hsel
    simp [hne]

theorem filterTasks_sentinel_iff_no_match_witness :
    Faults.healthy.Clean ∧
    ((filterTasks Faults.healthy [milk, walk, milkAgain] [("done", .bool false)]).2
        = some Err.ErrNoDocuments ↔
        ∀ t ∈ [milk, walk, milkAgain], selects [("done", .bool false)] t = false) ∧
    ((∃ t ∈ [milk, walk, milkAgain], selects [("done", .bool false)] t = true) →
        filterTasks Faults.healthy [milk, walk, milkAgain] [("done", .bool false)]
          = (List.filter (selects [("done", .bool false)]) [milk, walk, milkAgain], none)) :=
  ⟨healthy_clean,
    filterTasks_sentinel_iff_no_match Faults.healthy [milk, walk, milkAgain]
      [("done", .bool false)] healthy_clean⟩

/-- C2: over any store, with all three queries served without fault, the results
of `getPending` and `getFinished` are disjoint, every pending result has
`Done = false`, every finished result has `Done = true`, and together they are
the result of `getAll` split by `Done` (a permutation of it). -/
theorem pending_finished_partition_all (e1 e2 e3 : Faults) (collection : List Task)
    (h1 : e1.Clean) (h2 : e2.Clean) (h3 : e3.Clean) :
    (∀ t ∈ (getPending e1 collection).1, t.Done = false) ∧
    (∀ t ∈ (getFinished e2 collection).1, t.Done = true) ∧
    List.Disjoint (getPending e1 collection).1 (getFinished e2 collection).1 ∧
    (getPending e1 collection).1 = (getAll e3 collection).1.filter (fun t => !t.Done) ∧
    (getFinished e2 collection).1 = (getAll e3 collection).1.filter (fun t => t.Done) ∧
    List.Perm ((getPending e1 collection).1 ++ (getFinished e2 collection).1)
      (getAll e3 collection).1 := by
  have hP : (getPending e1 collection).1 = collection.filter (fun t => !t.Done) := by
    have hfun : selects [("done", Value.bool false)] = fun t : Task => !t.Done := by
      funext t; rw [selects_done]; cases t.Done <;> rfl
    simp only [getPending, filterTasks_clean e1 h1, hfun]
    split
    · next hnil => simp [hnil]
    · rfl
  have hF : (getFinished e2 collection).1 = collection.filter (fun t => t.Done) := by
    have hfun : selects [("done", Value.bool true)] = fun t : Task => t.Done := by
      funext t; rw [selects_done]; cases t.Done <;> rfl
    simp only [getFinished, filterTasks_clean e2 h2, hfun]
    split
    · next hnil => simp [hnil]
    · rfl
  have hA : (getAll e3 collection).1 = collection := by
    simp only [getAll, filterTasks_clean e3 h3, filter_selects_nil]
    split
    · next hnil => simp [hnil]
    · rfl
  rw [hP, hF, hA]
  refine ⟨?_, ?_, ?_, rfl, rfl, ?_⟩
  · intro t ht
    simpa using (List.mem_filter.mp ht).2
  · intro t ht
    simpa using (List.mem_filter.mp ht).2
  · intro t htP htF
    have hp := (List.mem_filter.mp htP).2
    have hf := (List.mem_filter.mp htF).2
    simp [hf] at hp
  · have := List.filter_append_perm (fun t : Task => t.Done) collection
    exact (List.perm_append_comm.trans this)

theorem pending_finished_partition_all_witness :
    Faults.healthy.Clean ∧
    (∀ t ∈ (getPending Faults.healthy [milk, walk, milkAgain]).1, t.Done = false) ∧
    (∀ t ∈ (getFinished Faults.healthy [milk, walk, milkAgain]).1, t.Done = true) ∧
    List.Disjoint (getPending Faults.healthy [milk, walk, milkAgain]).1
      (getFinished Faults.healthy [milk, walk, milkAgain]).1 ∧
    (getPending Faults.healthy [milk, walk, milkAgain]).1
      = (getAll Faults.healthy [milk, walk, milkAgain]).1.filter (fun t => !t.Done) ∧
    (getFinished Faults.healthy [milk, walk, milkAgain]).1
      = (getAll Faults.healthy [milk, walk, milkAgain]).1.filter (fun t => t.Done) ∧
    List.Perm ((getPending Faults.healthy [milk, walk, milkAgain]).1
        ++ (getFinished Faults.healthy [milk, walk, milkAgain]).1)
      (getAll Faults.healthy [milk, walk, milkAgain]).1 :=
  ⟨healthy_clean,
    pending_finished_partition_all Faults.healthy Faults.healthy Faults.healthy
      [milk, walk, milkAgain] healthy_clean healthy_clean healthy_clean⟩

/-- C3: if `createTask` succeeds, a following `getAll` served without fault
returns no error (so not `ErrNoDocuments`) and a sequence that holds the new
task exactly once and holds every task the store held before. -/
theorem createTask_then_getAll (e1 e2 : Faults) (collection : List Task) (task : Task)
    (h2 : e2.Clean) (hok : (createTask e1 collection task).1 = none) :
    (getAll e2 (createTask e1 collection task).2).2 = none ∧
    (getAll e2 (createTask e1 collection task).2).1.count task = 1 ∧
    (∀ t ∈ collection, t ∈ (getAll e2 (createTask e1 collection task).2).1) := by
  obtain ⟨hnew, hstore⟩ := createTask_ok e1 collection task hok
  have hall : getAll e2 (collection ++ [task]) = (collection ++ [task], none) := by
    simp [getAll, filterTasks_clean e2 h2, filter_selects_nil]
  rw [hstore, hall]
  refine ⟨rfl, ?_, ?_⟩
  · simp [List.count_append, List.count_eq_zero_of_not_mem hnew]
  · intro t ht
    exact List.mem_append_left _ ht

theorem createTask_then_getAll_witness :
    Faults.healthy.Clean ∧ (createTask Faults.healthy [milk, walk] milkAgain).1 = none ∧
    (getAll Faults.healthy (createTask Faults.healthy [milk, walk] milkAgain).2).2 = none ∧
    (getAll Faults.healthy (createTask Faults.healthy [milk, walk] milkAgain).2).1.count
      milkAgain = 1 ∧
    (∀ t ∈ [milk, walk],
      t ∈ (getAll Faults.healthy (createTask Faults.healthy [milk, walk] milkAgain).2).1) :=
  ⟨healthy_clean, by decide,
    createTask_then_getAll Faults.healthy Faults.healthy [milk, walk] milkAgain
      healthy_clean (by decide)⟩

/-! ## Completion -/

/-- C4: with the call served without fault, `completeTask` returns
`ErrNoDocuments` exactly when no stored task has a title equal to the argument
(string equality, nothing normalised); when some task has it, `completeTask`
returns no error and in the store it leaves the first task with that title has
`Done = true`. -/
theorem completeTask_notFound_iff (env : Faults) (collection : List Task)
    (title : String) (h : env.Clean) :
    ((completeTask env collection title).1 = some Err.ErrNoDocuments ↔
        ∀ t ∈ collection, t.Title ≠ title) ∧
    ((∃ t ∈ collection, t.Title = title) →
        (completeTask env collection title).1 = none ∧
        ((completeTask env collection title).2.find? (fun t => t.Title == title)).map
          Task.Done = some true) := by
  rw [completeTask_err env collection title h, completeTask_store, if_pos h.1]
  constructor
  · by_cases hex : (collection.find? (fun t => t.Title == title)).isSome = true
    · simp only [hex, if_true]
      constructor
      · intro hcontra; cases hcontra
      · intro hall
        obtain ⟨t, ht, heq⟩ := (find?_title_isSome collection title).mp hex
        exact absurd heq (hall t ht)
    · simp only [hex]
      simp only [Bool.false_eq_true, if_false, true_iff]
      intro t ht heq
      exact hex ((find?_title_isSome collection title).mpr ⟨t, ht, heq⟩)
  · intro hex
    have hsome := (find?_title_isSome collection title).mpr hex
    refine ⟨by simp [hsome], ?_⟩
    rw [find?_updateFirst (fun t => t.Title == title) (fun t => { t with Done := true })
      collection (fun t ht => ht)]
    obtain ⟨t, ht⟩ := Option.isSome_iff_exists.mp hsome
    simp [ht]

theorem completeTask_notFound_iff_witness :
    Faults.healthy.Clean ∧
    ((completeTask Faults.healthy [walk, milk, milkAgain] "buy milk").1
        = some Err.ErrNoDocuments ↔
        ∀ t ∈ [walk, milk, milkAgain], t.Title ≠ "buy milk") ∧
    ((∃ t ∈ [walk, milk, milkAgain], t.Title = "buy milk") →
        (completeTask Faults.healthy [walk, milk, milkAgain] "buy milk").1 = none ∧
        ((completeTask Faults.healthy [walk, milk, milkAgain] "buy milk").2.find?
          (fun t => t.Title == "buy milk")).map Task.Done = some true) :=
  ⟨healthy_clean,
    completeTask_notFound_iff Faults.healthy [walk, milk, milkAgain] "buy milk"
      healthy_clean⟩

/-- C5: on a store that holds a task with the given title, two `completeTask`
calls in a row, each served without fault, both return no error, the store after
the second equals the store after the first, and after each the first task with
that title has `Done = true`. -/
theorem completeTask_idempotent (e1 e2 : Faults) (collection : List Task)
    (title : String) (h1 : e1.Clean) (h2 : e2.Clean)
    (hex : ∃ t ∈ collection, t.Title = title) :
    (completeTask e1 collection title).1 = none ∧
    (completeTask e2 (completeTask e1 collection title).2 title).1 = none ∧
    (completeTask e2 (completeTask e1 collection title).2 title).2
      = (completeTask e1 collection title).2 ∧
    ((completeTask e1 collection title).2.find? (fun t => t.Title == title)).map
      Task.Done = some true ∧
    ((completeTask e2 (completeTask e1 collection title).2 title).2.find?
      (fun t => t.Title == title)).map Task.Done = some true := by
  have hsome := (find?_title_isSome collection title).mpr hex
  have hfind : ((updateFirst (fun t => t.Title == title)
      (fun t => { t with Done := true }) collection).find?
        (fun t => t.Title == title)).map Task.Done = some true := by
    rw [find?_updateFirst (fun t => t.Title == title) (fun t => { t with Done := true })
      collection (fun t ht => ht)]
    obtain ⟨t, ht⟩ := Option.isSome_iff_exists.mp hsome
    simp [ht]
  have hsome2 : ((updateFirst (fun t => t.Title == title)
      (fun t => { t with Done := true }) collection).find?
        (fun t => t.Title == title)).isSome = true := by
    cases hf : (updateFirst (fun t => t.Title == title)
      (fun t => { t with Done := true }) collection).find? (fun t => t.Title == title) with
    | some t => rfl
    | none => rw [hf] at hfind; cases hfind
  have hstore2 : (completeTask e2 (completeTask e1 collection title).2 title).2
      = (completeTask e1 collection title).2 := by
    rw [completeTask_store e2, completeTask_store e1, if_pos h1.1, if_pos h2.1]
    exact updateFirst_idem _ _ _ (fun t ht => ht) (fun t => rfl)
  refine ⟨?_, ?_, hstore2, ?_, ?_⟩
  · rw [completeTask_err e1 collection title h1]; simp [hsome]
  · rw [completeTask_err e2 _ title h2, completeTask_store e1, if_pos h1.1]; simp [hsome2]
  · rw [completeTask_store e1, if_pos h1.1]; exact hfind
  · rw [hstore2, completeTask_store e1, if_pos h1.1]; exact hfind

theorem completeTask_idempotent_witness :
    Faults.healthy.Clean ∧ (∃ t ∈ [walk, milk, milkAgain], t.Title = "buy milk") ∧
    (completeTask Faults.healthy [walk, milk, milkAgain] "buy milk").1 = none ∧
    (completeTask Faults.healthy
      (completeTask Faults.healthy [walk, milk, milkAgain] "buy milk").2 "buy milk").1
      = none ∧
    (completeTask Faults.healthy
      (completeTask Faults.healthy [walk, milk, milkAgain] "buy milk").2 "buy milk").2
      = (completeTask Faults.healthy [walk, milk, milkAgain] "buy milk").2 ∧
    ((completeTask Faults.healthy [walk, milk, milkAgain] "buy milk").2.find?
      (fun t => t.Title == "buy milk")).map Task.Done = some true ∧
    ((completeTask Faults.healthy
      (completeTask Faults.healthy [walk, milk, milkAgain] "buy milk").2 "buy milk").2.find?
      (fun t => t.Title == "buy milk")).map Task.Done = some true :=
  ⟨healthy_clean, ⟨milk, by decide, by decide⟩,
    completeTask_idempotent Faults.healthy Faults.healthy [walk, milk, milkAgain]
      "buy milk" healthy_clean healthy_clean ⟨milk, by decide, by decide⟩⟩

/-- C8: whatever happens to the call, `completeTask` keeps the number and order of
the tasks, leaves every task other than the first one with the given title as
it was (later tasks with the same title included), the task at that position
is as it was or differs only in `Done = true`, and every task keeps its `ID`,
`CreatedAt`, `Title` and `UpdatedAt`. -/
theorem completeTask_frame (env : Faults) (collection : List Task) (title : String) :
    (completeTask env collection title).2.length = collection.length ∧
    (∀ i : Nat, i ≠ collection.findIdx (fun t => t.Title == title) →
      (completeTask env collection title).2[i]? = collection[i]?) ∧
    ((completeTask env collection title).2[collection.findIdx (fun t => t.Title == title)]?
        = collection[collection.findIdx (fun t => t.Title == title)]? ∨
      (completeTask env collection title).2[collection.findIdx (fun t => t.Title == title)]?
        = (collection[collection.findIdx (fun t => t.Title == title)]?).map
            (fun t => { t with Done := true })) ∧
    (completeTask env collection title).2.map Task.ID = collection.map Task.ID ∧
    (completeTask env collection title).2.map Task.CreatedAt
      = collection.map Task.CreatedAt ∧
    (completeTask env collection title).2.map Task.Title = collection.map Task.Title ∧
    (completeTask env collection title).2.map Task.UpdatedAt
      = collection.map Task.UpdatedAt := by
  rw [completeTask_store]
  by_cases hc : env.call = none
  · simp only [hc, if_true]
    have hmap : ∀ (g : Task → Task) (l : List Task),
        (∀ t, (g t).ID = t.ID ∧ (g t).CreatedAt = t.CreatedAt ∧ (g t).Title = t.Title
          ∧ (g t).UpdatedAt = t.UpdatedAt) →
        (updateFirst (fun t => t.Title == title) g l).map Task.ID = l.map Task.ID ∧
        (updateFirst (fun t => t.Title == title) g l).map Task.CreatedAt
          = l.map Task.CreatedAt ∧
        (updateFirst (fun t => t.Title == title) g l).map Task.Title = l.map Task.Title ∧
        (updateFirst (fun t => t.Title == title) g l).map Task.UpdatedAt
          = l.map Task.UpdatedAt := by
      intro g l hg
      induction l with
      | nil => exact ⟨rfl, rfl, rfl, rfl⟩
      | cons t ts ih =>
        obtain ⟨h1, h2, h3, h4⟩ := hg t
        by_cases hp : (t.Title == title) = true
        · simp [updateFirst, hp, h1, h2, h3, h4]
        · simp [updateFirst, hp, ih.1, ih.2.1, ih.2.2.1, ih.2.2.2]
    exact ⟨updateFirst_length _ _ _, updateFirst_getElem?_ne _ _ _,
      Or.inr (updateFirst_getElem?_first _ _ _), hmap _ _ (fun t => ⟨rfl, rfl, rfl, rfl⟩)⟩
  · simp [hc]

/-! ## Deletion -/

/-- C6: with the call itself served, `deleteTask` on a store in which no task has
the given title returns the error `"No tasks were deleted"` (not a driver error)
and leaves the store as it was; so does `deleteTask "nonexistent"` on the empty
store. -/
theorem deleteTask_absent (env : Faults) (collection : List Task) (title : String)
    (hcall : env.call = none) (habsent : ∀ t ∈ collection, t.Title ≠ title) :
    deleteTask env collection title = (some (Err.New "No tasks were deleted"), collection) ∧
    (∀ m, (deleteTask env collection title).1 ≠ some (Err.driver m)) ∧
    deleteTask env [] "nonexistent" = (some (Err.New "No tasks were deleted"), []) := by
  have hgen : ∀ (c : List Task) (s : String), (∀ t ∈ c, t.Title ≠ s) →
      deleteTask env c s = (some (Err.New "No tasks were deleted"), c) := by
    intro c s hc
    have hany : c.any (selects [("title", Value.str s)]) = false := by
      rw [List.any_eq_false]
      intro t ht
      rw [selects_title]
      simpa using hc t ht
    simp [deleteTask, DeleteOne, hcall, hany]
  refine ⟨hgen collection title habsent, ?_, hgen [] "nonexistent" (by simp)⟩
  intro m
  rw [hgen collection title habsent]
  simp

theorem deleteTask_absent_witness :
    Faults.healthy.call = none ∧ (∀ t ∈ [milk, walk], t.Title ≠ "nonexistent") ∧
    deleteTask Faults.healthy [milk, walk] "nonexistent"
      = (some (Err.New "No tasks were deleted"), [milk, walk]) ∧
    (∀ m, (deleteTask Faults.healthy [milk, walk] "nonexistent").1 ≠ some (Err.driver m)) ∧
    deleteTask Faults.healthy [] "nonexistent"
      = (some (Err.New "No tasks were deleted"), []) :=
  ⟨rfl, by decide,
    deleteTask_absent Faults.healthy [milk, walk] "nonexistent" rfl (by decide)⟩

/-- C7: with the call itself served, `deleteTask` on a store that holds a task with
the given title returns no error, and the store it leaves is the old one without
the first task of that title: the tasks before it (none with that title) and the
tasks after it (same title or not) stay as they were, in their order. -/
theorem deleteTask_present (env : Faults) (collection : List Task) (title : String)
    (hcall : env.call = none) (hex : ∃ t ∈ collection, t.Title = title) :
    ∃ l1 t l2, collection = l1 ++ t :: l2 ∧ (∀ x ∈ l1, x.Title ≠ title) ∧
      t.Title = title ∧ deleteTask env collection title = (none, l1 ++ l2) := by
  obtain ⟨t, ht, htitle⟩ := hex
  have hsel : selects [("title", Value.str title)] t = true := by
    rw [selects_title]; simpa using htitle
  obtain ⟨a, l1, l2, hnot, ha, hl, herase⟩ := List.exists_of_eraseP ht hsel
  have hany : collection.any (selects [("title", Value.str title)]) = true :=
    List.any_eq_true.mpr ⟨t, ht, hsel⟩
  refine ⟨l1, a, l2, hl, ?_, ?_, ?_⟩
  · intro x hx heq
    have := hnot x hx
    rw [selects_title] at this
    exact this (by simpa using heq)
  · rw [selects_title] at ha
    simpa using ha
  · simp [deleteTask, DeleteOne, hcall, hany, herase]

theorem deleteTask_present_witness :
    Faults.healthy.call = none ∧ (∃ t ∈ [walk, milk, milkAgain], t.Title = "buy milk") ∧
    ∃ l1 t l2, [walk, milk, milkAgain] = l1 ++ t :: l2 ∧
      (∀ x ∈ l1, x.Title ≠ "buy milk") ∧ t.Title = "buy milk" ∧
      deleteTask Faults.healthy [walk, milk, milkAgain] "buy milk" = (none, l1 ++ l2) :=
  ⟨rfl, ⟨milk, by decide, by decide⟩,
    deleteTask_present Faults.healthy [walk, milk, milkAgain] "buy milk" rfl
      ⟨milk, by decide, by decide⟩⟩

/-! ## Scenario and the add command -/

/-- C9: from the empty store, creating a task titled `"buy milk"` with
`Done = false` leaves a store on which `getPending` returns exactly that task;
`completeTask "buy milk"` then returns no error; on the store it leaves,
`getFinished` returns exactly the one task `"buy milk"` (now done) and
`getPending` returns `ErrNoDocuments`.  Every call is served without fault. -/
theorem buy_milk_scenario (e1 e2 e3 e4 e5 : Faults) (oid : Nat) (created updated : Int)
    (h1 : e1.call = none) (h2 : e2.Clean) (h3 : e3.Clean) (h4 : e4.Clean)
    (h5 : e5.Clean) :
    createTask e1 [] ⟨oid, created, updated, "buy milk", false⟩
      = (none, [⟨oid, created, updated, "buy milk", false⟩]) ∧
    getPending e2 (createTask e1 [] ⟨oid, created, updated, "buy milk", false⟩).2
      = ([⟨oid, created, updated, "buy milk", false⟩], none) ∧
    completeTask e3 (createTask e1 [] ⟨oid, created, updated, "buy milk", false⟩).2
        "buy milk"
      = (none, [⟨oid, created, updated, "buy milk", true⟩]) ∧
    getFinished e4
        (completeTask e3 (createTask e1 [] ⟨oid, created, updated, "buy milk", false⟩).2
          "buy milk").2
      = ([⟨oid, created, updated, "buy milk", true⟩], none) ∧
    getPending e5
        (completeTask e3 (createTask e1 [] ⟨oid, created, updated, "buy milk", false⟩).2
          "buy milk").2
      = ([], some Err.ErrNoDocuments) := by
  have hcreate : createTask e1 [] ⟨oid, created, updated, "buy milk", false⟩
      = (none, [⟨oid, created, updated, "buy milk", false⟩]) := by
    simp [createTask, InsertOne, h1]
  have hcomplete : completeTask e3 [⟨oid, created, updated, "buy milk", false⟩] "buy milk"
      = (none, [⟨oid, created, updated, "buy milk", true⟩]) := by
    apply Prod.ext
    · rw [completeTask_err e3 _ _ h3]; simp
    · rw [completeTask_store, if_pos h3.1]; simp [updateFirst]
  rw [hcreate, hcomplete]
  refine ⟨rfl, ?_, rfl, ?_, ?_⟩
  · simp [getPending, filterTasks_clean e2 h2, selects_done]
  · simp [getFinished, filterTasks_clean e4 h4, selects_done]
  · simp [getPending, filterTasks_clean e5 h5, selects_done]

theorem buy_milk_scenario_witness :
    Faults.healthy.call = none ∧ Faults.healthy.Clean ∧
    createTask Faults.healthy [] ⟨1, 10, 10, "buy milk", false⟩
      = (none, [⟨1, 10, 10, "buy milk", false⟩]) ∧
    getPending Faults.healthy (createTask Faults.healthy [] ⟨1, 10, 10, "buy milk", false⟩).2
      = ([⟨1, 10, 10, "buy milk", false⟩], none) ∧
    completeTask Faults.healthy
        (createTask Faults.healthy [] ⟨1, 10, 10, "buy milk", false⟩).2 "buy milk"
      = (none, [⟨1, 10, 10, "buy milk", true⟩]) ∧
    getFinished Faults.healthy
        (completeTask Faults.healthy
          (createTask Faults.healthy [] ⟨1, 10, 10, "buy milk", false⟩).2 "buy milk").2
      = ([⟨1, 10, 10, "buy milk", true⟩], none) ∧
    getPending Faults.healthy
        (completeTask Faults.healthy
          (createTask Faults.healthy [] ⟨1, 10, 10, "buy milk", false⟩).2 "buy milk").2
      = ([], some Err.ErrNoDocuments) :=
  ⟨rfl, healthy_clean,
    buy_milk_scenario Faults.healthy Faults.healthy Faults.healthy Faults.healthy
      Faults.healthy 1 10 10 rfl healthy_clean healthy_clean healthy_clean healthy_clean⟩

/-- C10: the `add` action with an empty title (no argument, or `""`) ends in
`log.Fatal "Please enter a task"` with the store as it was, `createTask` not
called; with a non-empty title it returns what `createTask` returns for a task
with that title and `Done = false`, and leaves the store `createTask` leaves. -/
theorem addAction_validates_title (env : Faults) (oid : Nat) (created updated : Int)
    (args : List String) (collection : List Task) :
    (First args = "" →
      addAction env oid created updated args collection
        = (Exit.fatal "Please enter a task", collection)) ∧
    (First args ≠ "" →
      addAction env oid created updated args collection
        = (Exit.returned
            (createTask env collection ⟨oid, created, updated, First args, false⟩).1,
           (createTask env collection ⟨oid, created, updated, First args, false⟩).2)) := by
  constructor
  · intro hempty
    simp [addAction, hempty]
  · intro hne
    simp [addAction, hne]

theorem addAction_validates_title_witness :
    (First [""] = "" ∧
      addAction Faults.healthy 4 40 41 [""] [milk]
        = (Exit.fatal "Please enter a task", [milk])) ∧
    (First ["call mum"] ≠ "" ∧
      addAction Faults.healthy 4 40 41 ["call mum"] [milk]
        = (Exit.returned none, [milk, ⟨4, 40, 41, "call mum", false⟩])) :=
  ⟨⟨by decide,
      (addAction_validates_title Faults.healthy 4 40 41 [""] [milk]).1 (by decide)⟩,
    ⟨by decide,
      (addAction_validates_title Faults.healthy 4 40 41 ["call mum"] [milk]).2
        (by decide)⟩⟩

end Tasker
